import Mathlib

/-!
Verification of the elastic-scaling controller in `scaling_to_cloud.py`
(with the threshold structure shared by `scale2.py`).

The controller state is the pair of module-level globals `current_size` and
`active_instances`; one iteration of the `monitor_resources` loop is embedded
as the function `monitor_tick`, parameterised by an environment `Env` that
records the outcomes the backend (gcloud) produces during that iteration.
Python sets are modelled as insertion-ordered lists: `list(s)[0]` is the head,
`list(s)[-1]` is the last element.  A tick returns `Except Unit` because
`get_instance_names` runs `subprocess.run(..., check=True)` with no handler,
so a failing list call raises out of the loop; every backend call issued during
the tick is recorded in a trace of `Call`s.
-/

namespace VccScaling

/-- Threshold above which local CPU triggers scale up / offloading (line 19). -/
def CPU_SCALE_UP_THRESHOLD : ℚ := 75

/-- Threshold above which local memory triggers scale up / offloading (line 20). -/
def MEM_SCALE_UP_THRESHOLD : ℚ := 90

/-- Threshold below which local CPU contributes to scale down (line 21). -/
def CPU_SCALE_DOWN_THRESHOLD : ℚ := 50

/-- Threshold below which local memory contributes to scale down (line 22). -/
def MEM_SCALE_DOWN_THRESHOLD : ℚ := 50

/-- Maximum size of the instance group (line 27). -/
def MAX_INSTANCES : Nat := 5

/-- Minimum size of the instance group (line 28). -/
def MIN_INSTANCES : Nat := 1

/-- The three-way per-tick decision of the hysteresis rule. -/
inductive Decision where
  | ScaleUp
  | ScaleDown
  | Hold
deriving DecidableEq

/-- The `if cpu > up or mem > up / elif cpu < down and mem < down / else` branch
structure shared by `monitor_resources` (lines 172 and 220) and
`monitor_and_scale` in `scale2.py` (lines 117 and 129), with the thresholds as
parameters since `scale2.py` reads them from configuration. -/
def decision (cpuUp memUp cpuDown memDown cpu mem : ℚ) : Decision :=
  if cpu > cpuUp ∨ mem > memUp then Decision.ScaleUp
  else if cpu < cpuDown ∧ mem < memDown then Decision.ScaleDown
  else Decision.Hold

/-- One backend (gcloud) call issued by the controller. -/
inductive Call where
  | listNodes
  | resize (n : Nat)
  | describe (node : String)
  | startWorkload (node : String)
deriving DecidableEq

/-- The controller's mutable globals: `current_size` (line 36) and
`active_instances` (line 38), the latter as an insertion-ordered list. -/
structure State where
  current_size : Nat
  active_instances : List String
deriving DecidableEq

/-- Initial state: `current_size = MIN_INSTANCES`, `active_instances = set()`. -/
def initState : State :=
  { current_size := MIN_INSTANCES, active_instances := [] }

/-- Backend outcomes observed during one iteration of the monitoring loop.
`listAvail` is the result of `get_instance_names()` at line 174, `listBefore`
the one at line 189, and `polls` the successive results of the detection poll
at line 197 up to its 300 s deadline.  `statuses node` lists the statuses the
describe poll in `wait_for_instance` observes for `node` before its deadline.
`startOk` and `resizeOk` record whether the corresponding gcloud invocations
succeed; the Python catches their failures and only prints. -/
structure Env where
  cpu_usage : ℚ
  mem_usage : ℚ
  listAvail : Except Unit (List String)
  listBefore : Except Unit (List String)
  polls : List (Except Unit (List String))
  statuses : String → List String
  startOk : String → Bool
  resizeOk : Nat → Bool

/-- Python set difference `xs - ys` on the list model, keeping order. -/
def setDiff (xs ys : List String) : List String :=
  xs.filter (fun n => !(ys.contains n))

/-- `active_instances.add(node)`: a no-op when present, else insert (at the
end, the list model of insertion order). -/
def addActive (node : String) (active : List String) : List String :=
  if active.contains node then active else active ++ [node]

/-- `wait_for_instance` (lines 76-93): poll `describe` until a poll returns
`RUNNING` or the deadline passes; `sts` are the statuses observed by the
successive polls before the deadline.  The describe subprocess is run without
`check=True`, so a failing call just reads as a non-RUNNING status. -/
def wait_for_instance (node : String) : List String → Bool × List Call
  | [] => (false, [])
  | st :: rest =>
    if st = "RUNNING" then (true, [Call.describe node])
    else
      let r := wait_for_instance node rest
      (r.1, Call.describe node :: r.2)

/-- `start_remote_load` (lines 95-114): issues the workload-start ssh command;
a `CalledProcessError` is caught and only printed, so the outcome `ok` has no
effect on the caller. -/
def start_remote_load (node : String) (ok : Bool) : List Call :=
  [Call.startWorkload node]

/-- `scale_instance_group` (lines 130-147): issues the resize command; a
`CalledProcessError` is caught and only printed, so the outcome `ok` has no
effect on the caller. -/
def scale_instance_group (new_size : Nat) (ok : Bool) : List Call :=
  [Call.resize new_size]

/-- The new-node detection poll (lines 193-202): repeatedly calls
`get_instance_names()` (so a failure raises, `Except.error`) and stops at the
first non-empty `after - before`, returning the detected node (or `none` on
deadline expiry) together with the list calls issued. -/
def detect_new_node (before : List String) :
    List (Except Unit (List String)) → Except Unit (Option String × List Call)
  | [] => Except.ok (none, [])
  | Except.error e :: _ => Except.error e
  | Except.ok after :: rest =>
    match setDiff after before with
    | [] =>
      match detect_new_node before rest with
      | Except.error e => Except.error e
      | Except.ok (r, tr) => Except.ok (r, Call.listNodes :: tr)
    | n :: _ => Except.ok (some n, [Call.listNodes])

/-- The offload path (lines 176-185): wait for the chosen node to be RUNNING;
on success start the remote load, add the node to `active_instances` and set
`current_size = max(current_size, len(active_instances))`; otherwise print and
leave the state unchanged. -/
def offload (env : Env) (s : State) (node : String) : State × List Call :=
  if (wait_for_instance node (env.statuses node)).1 then
    ({ current_size :=
         max s.current_size (addActive node s.active_instances).length,
       active_instances := addActive node s.active_instances },
      (wait_for_instance node (env.statuses node)).2 ++
        start_remote_load node (env.startOk node))
  else
    (s, (wait_for_instance node (env.statuses node)).2)

/-- The grow path (lines 189-215): snapshot `before`, resize to
`current_size + 1`, poll for a new node; if detected, wait for RUNNING and on
success start the load, add the node and commit `current_size = desired`;
if no node is detected or it never reaches RUNNING, revert by resizing back to
the original `current_size`.  The leading `Call.listNodes` is the `before`
snapshot. -/
def grow_by_one (env : Env) (s : State) : Except Unit (State × List Call) :=
  match env.listBefore with
  | Except.error e => Except.error e
  | Except.ok before =>
    match detect_new_node before env.polls with
    | Except.error e => Except.error e
    | Except.ok (some n, trPoll) =>
      if (wait_for_instance n (env.statuses n)).1 then
        Except.ok
          ({ current_size := s.current_size + 1,
             active_instances := addActive n s.active_instances },
            Call.listNodes ::
              (scale_instance_group (s.current_size + 1)
                  (env.resizeOk (s.current_size + 1)) ++
                trPoll ++ (wait_for_instance n (env.statuses n)).2 ++
                start_remote_load n (env.startOk n)))
      else
        Except.ok (s,
          Call.listNodes ::
            (scale_instance_group (s.current_size + 1)
                (env.resizeOk (s.current_size + 1)) ++
              trPoll ++ (wait_for_instance n (env.statuses n)).2 ++
              scale_instance_group s.current_size (env.resizeOk s.current_size)))
    | Except.ok (none, trPoll) =>
      Except.ok (s,
        Call.listNodes ::
          (scale_instance_group (s.current_size + 1)
              (env.resizeOk (s.current_size + 1)) ++
            trPoll ++ scale_instance_group s.current_size (env.resizeOk s.current_size)))

/-- The scale-down path (lines 221-233): when above `MIN_INSTANCES` and an
active node exists, resize to `current_size - 1`, remove the last active node
and commit the decrement (regardless of the resize outcome, which
`scale_instance_group` swallows); otherwise print only. -/
def scale_down (env : Env) (s : State) : State × List Call :=
  if MIN_INSTANCES < s.current_size then
    match s.active_instances.getLast? with
    | some _ =>
      ({ current_size := s.current_size - 1,
         active_instances := s.active_instances.dropLast },
        scale_instance_group (s.current_size - 1) (env.resizeOk (s.current_size - 1)))
    | none => (s, [])
  else
    (s, [])

/-- One iteration of the `monitor_resources` loop (lines 166-236). -/
def monitor_tick (env : Env) (s : State) : Except Unit (State × List Call) :=
  if env.cpu_usage > CPU_SCALE_UP_THRESHOLD ∨ env.mem_usage > MEM_SCALE_UP_THRESHOLD then
    match env.listAvail with
    | Except.error e => Except.error e
    | Except.ok names =>
      match setDiff names s.active_instances with
      | node :: _ =>
        Except.ok ((offload env s node).1, Call.listNodes :: (offload env s node).2)
      | [] =>
        if s.current_size < MAX_INSTANCES then
          match grow_by_one env s with
          | Except.error e => Except.error e
          | Except.ok (s', tr) => Except.ok (s', Call.listNodes :: tr)
        else
          Except.ok (s, [Call.listNodes])
  else if env.cpu_usage < CPU_SCALE_DOWN_THRESHOLD ∧ env.mem_usage < MEM_SCALE_DOWN_THRESHOLD then
    Except.ok ((scale_down env s).1, (scale_down env s).2)
  else
    Except.ok (s, [])

/-- Iterate `monitor_tick` over a list of per-tick environments; an uncaught
exception in any tick terminates the run. -/
def run : List Env → State → Except Unit State
  | [], s => Except.ok s
  | env :: rest, s =>
    match monitor_tick env s with
    | Except.error e => Except.error e
    | Except.ok (s', _) => run rest s'

/-- Tick environment: high CPU, no idle node, grow detects "n2" which reaches
RUNNING, but the remote workload start fails (`startOk "n2" = false`). -/
def envGrowStartFail : Env :=
  { cpu_usage := 80, mem_usage := 40, listAvail := Except.ok [],
    listBefore := Except.ok [], polls := [Except.ok ["n2"]],
    statuses := fun _ => ["RUNNING"], startOk := fun _ => false,
    resizeOk := fun _ => true }

/-- Tick environment: high CPU and a backend that lists six group members, all
of which report RUNNING at once. -/
def envOffloadMany : Env :=
  { cpu_usage := 80, mem_usage := 40,
    listAvail := Except.ok ["n1", "n2", "n3", "n4", "n5", "n6"],
    listBefore := Except.ok [], polls := [], statuses := fun _ => ["RUNNING"],
    startOk := fun _ => true, resizeOk := fun _ => true }

/-- Tick environment: low load and a backend whose resize call fails. -/
def envShrinkFail : Env :=
  { cpu_usage := 30, mem_usage := 20, listAvail := Except.ok [],
    listBefore := Except.ok [], polls := [], statuses := fun _ => [],
    startOk := fun _ => true, resizeOk := fun _ => false }

/-- Tick environment: high CPU and a failing `get_instance_names` call. -/
def envListFail : Env :=
  { cpu_usage := 80, mem_usage := 40, listAvail := Except.error (),
    listBefore := Except.ok [], polls := [], statuses := fun _ => [],
    startOk := fun _ => true, resizeOk := fun _ => true }

/-- Tick environment: high CPU, the group lists "a" and "b", and every node
reports RUNNING. -/
def envOffloadFull : Env :=
  { cpu_usage := 80, mem_usage := 40, listAvail := Except.ok ["a", "b"],
    listBefore := Except.ok [], polls := [], statuses := fun _ => ["RUNNING"],
    startOk := fun _ => true, resizeOk := fun _ => true }

/-- Tick environment: high CPU, one idle group member "n1" that is RUNNING. -/
def envOffloadOne : Env :=
  { cpu_usage := 80, mem_usage := 40, listAvail := Except.ok ["n1"],
    listBefore := Except.ok [], polls := [], statuses := fun _ => ["RUNNING"],
    startOk := fun _ => true, resizeOk := fun _ => true }

/-- Tick environment: load between the down and up thresholds (Hold). -/
def envHold : Env :=
  { cpu_usage := 60, mem_usage := 60, listAvail := Except.ok [],
    listBefore := Except.ok [], polls := [], statuses := fun _ => [],
    startOk := fun _ => true, resizeOk := fun _ => true }

/-- Tick environment: low load on both metrics. -/
def envLowLoad : Env :=
  { cpu_usage := 30, mem_usage := 20, listAvail := Except.ok [],
    listBefore := Except.ok [], polls := [], statuses := fun _ => [],
    startOk := fun _ => true, resizeOk := fun _ => true }

/-- Tick environment: high CPU, no idle node, and a grow whose detection poll
budget expires without a new node ever appearing. -/
def envGrowTimeout : Env :=
  { cpu_usage := 80, mem_usage := 40, listAvail := Except.ok [],
    listBefore := Except.ok [], polls := [], statuses := fun _ => [],
    startOk := fun _ => true, resizeOk := fun _ => false }

/-- Tick environment: high CPU, one idle node "b" that never reports RUNNING. -/
def envOffloadNotReady : Env :=
  { cpu_usage := 80, mem_usage := 40, listAvail := Except.ok ["b"],
    listBefore := Except.ok [], polls := [], statuses := fun _ => [],
    startOk := fun _ => true, resizeOk := fun _ => true }

/-- Tick environment: the list calls succeed but every resize, workload start
and describe poll fails (describe failures read as non-RUNNING statuses). -/
def envBackendFlaky : Env :=
  { cpu_usage := 80, mem_usage := 40, listAvail := Except.ok [],
    listBefore := Except.ok [], polls := [Except.ok []],
    statuses := fun _ => [], startOk := fun _ => false,
    resizeOk := fun _ => false }

/-- Mini-cycle duration of the load generator, `cycle = 0.1` (line 49). -/
def cycle : ℚ := 1/10

/-- Python `a % b` on rationals (sign follows the divisor, as for floats). -/
def pyMod (a b : ℚ) : ℚ := a - b * ⌊a / b⌋

/-- `fraction = (elapsed % total_duration) / total_duration` (line 53). -/
def fraction (elapsed total : ℚ) : ℚ := pyMod elapsed total / total

/-- `intensity = fraction / 0.5 if fraction < 0.5 else (1 - fraction) / 0.5`
(line 55). -/
def intensity (elapsed total : ℚ) : ℚ :=
  if fraction elapsed total < 1/2 then fraction elapsed total / (1/2)
  else (1 - fraction elapsed total) / (1/2)

/-- `busy_time = cycle * intensity` (line 56). -/
def busy_time (elapsed total : ℚ) : ℚ := cycle * intensity elapsed total

/-- `sleep_time = cycle - busy_time` (line 57). -/
def sleep_time (elapsed total : ℚ) : ℚ := cycle - busy_time elapsed total

/-! ### Helper lemmas -/

lemma decision_eq_scaleUp_iff (cpuUp memUp cpuDown memDown cpu mem : ℚ) :
    decision cpuUp memUp cpuDown memDown cpu mem = Decision.ScaleUp ↔
      (cpu > cpuUp ∨ mem > memUp) := by
  unfold decision
  split_ifs with h1 h2
  · simp [h1]
  · exact ⟨fun hh => absurd hh (by simp), fun hh => absurd hh h1⟩
  · exact ⟨fun hh => absurd hh (by simp), fun hh => absurd hh h1⟩

lemma decision_eq_scaleDown (cpuUp memUp cpuDown memDown cpu mem : ℚ)
    (h : decision cpuUp memUp cpuDown memDown cpu mem = Decision.ScaleDown) :
    ¬(cpu > cpuUp ∨ mem > memUp) ∧ (cpu < cpuDown ∧ mem < memDown) := by
  by_cases hup : cpu > cpuUp ∨ mem > memUp
  · simp [decision, hup] at h
  · by_cases hdn : cpu < cpuDown ∧ mem < memDown
    · exact ⟨hup, hdn⟩
    · simp [decision, hup, hdn] at h

lemma wait_calls_describe (node : String) :
    ∀ (sts : List String), ∀ c ∈ (wait_for_instance node sts).2, c = Call.describe node := by
  intro sts
  induction sts with
  | nil =>
    intro c hc
    simp [wait_for_instance] at hc
  | cons st rest ih =>
    intro c hc
    by_cases hs : st = "RUNNING"
    · simp [wait_for_instance, hs] at hc
      exact hc
    · simp only [wait_for_instance, if_neg hs] at hc
      rcases List.mem_cons.mp hc with h | h
      · exact h
      · exact ih c h

lemma wait_true_describe_mem (node : String) :
    ∀ (sts : List String), (wait_for_instance node sts).1 = true →
      Call.describe node ∈ (wait_for_instance node sts).2 := by
  intro sts
  induction sts with
  | nil =>
    intro h
    simp [wait_for_instance] at h
  | cons st rest ih =>
    intro h
    by_cases hs : st = "RUNNING"
    · simp [wait_for_instance, hs]
    · simp only [wait_for_instance, if_neg hs] at h ⊢
      exact List.mem_cons_of_mem _ (ih h)

lemma mem_addActive {n m : String} {a : List String} (h : n ∈ addActive m a) :
    n ∈ a ∨ n = m := by
  unfold addActive at h
  split_ifs at h with hc
  · exact Or.inl h
  · rcases List.mem_append.mp h with h' | h'
    · exact Or.inl h'
    · exact Or.inr (List.mem_singleton.mp h')

lemma mem_addActive_of_mem (n m : String) (a : List String) (h : n ∈ a) :
    n ∈ addActive m a := by
  unfold addActive
  split_ifs with hc
  · exact h
  · exact List.mem_append.mpr (Or.inl h)

lemma length_le_addActive (m : String) (a : List String) :
    a.length ≤ (addActive m a).length := by
  unfold addActive
  split_ifs with hc
  · exact le_refl _
  · simp

lemma detect_calls_listNodes (before : List String) :
    ∀ (polls : List (Except Unit (List String))) (r : Option String) (tr : List Call),
      detect_new_node before polls = Except.ok (r, tr) → ∀ c ∈ tr, c = Call.listNodes := by
  intro polls
  induction polls with
  | nil =>
    intro r tr h c hc
    simp [detect_new_node] at h
    obtain ⟨h1, h2⟩ := h
    subst h2
    simp at hc
  | cons p rest ih =>
    intro r tr h c hc
    cases p with
    | error e => simp [detect_new_node] at h
    | ok after =>
      simp only [detect_new_node] at h
      cases hd : setDiff after before with
      | nil =>
        rw [hd] at h
        cases hrec : detect_new_node before rest with
        | error e =>
          rw [hrec] at h
          simp at h
        | ok pr =>
          obtain ⟨r', tr'⟩ := pr
          rw [hrec] at h
          simp at h
          obtain ⟨h1, h2⟩ := h
          subst h2
          rcases List.mem_cons.mp hc with h' | h'
          · exact h'
          · exact ih r' tr' hrec c h'
      | cons nn tl =>
        rw [hd] at h
        simp at h
        obtain ⟨h1, h2⟩ := h
        subst h2
        simp at hc
        exact hc

lemma detect_ok_of_polls_ok (before : List String) :
    ∀ (polls : List (Except Unit (List String))),
      (∀ p ∈ polls, ∃ zs, p = Except.ok zs) →
      ∃ r, detect_new_node before polls = Except.ok r := by
  intro polls
  induction polls with
  | nil =>
    intro _
    exact ⟨(none, []), rfl⟩
  | cons p rest ih =>
    intro h
    obtain ⟨zs, hz⟩ := h p (List.mem_cons_self p rest)
    subst hz
    obtain ⟨r, hr⟩ := ih (fun q hq => h q (List.mem_cons_of_mem _ hq))
    simp only [detect_new_node]
    cases hd : setDiff zs before with
    | nil =>
      rw [hr]
      obtain ⟨r1, r2⟩ := r
      exact ⟨(r1, Call.listNodes :: r2), rfl⟩
    | cons nn tl =>
      exact ⟨(some nn, [Call.listNodes]), rfl⟩

lemma offload_calls (env : Env) (s : State) (node : String) :
    ∀ c ∈ (offload env s node).2, c = Call.describe node ∨ c = Call.startWorkload node := by
  intro c hc
  simp only [offload] at hc
  split_ifs at hc with hw
  · dsimp only at hc
    rcases List.mem_append.mp hc with h | h
    · exact Or.inl (wait_calls_describe node _ c h)
    · simp [start_remote_load] at h
      exact Or.inr h
  · dsimp only at hc
    exact Or.inl (wait_calls_describe node _ c hc)

lemma ok_pair_eq {α β : Type} {x x' : α} {y y' : β}
    (h : (Except.ok (x, y) : Except Unit (α × β)) = Except.ok (x', y')) :
    x = x' ∧ y = y' := by
  injection h with h'
  exact ⟨congrArg Prod.fst h', congrArg Prod.snd h'⟩

lemma offload_result (env : Env) (s : State) (node : String) :
    offload env s node = (s, (wait_for_instance node (env.statuses node)).2) ∨
    ((wait_for_instance node (env.statuses node)).1 = true ∧
      offload env s node =
        ({ current_size := max s.current_size (addActive node s.active_instances).length,
           active_instances := addActive node s.active_instances },
          (wait_for_instance node (env.statuses node)).2 ++ [Call.startWorkload node])) := by
  by_cases hw : (wait_for_instance node (env.statuses node)).1 = true
  · right
    refine ⟨hw, ?_⟩
    simp only [offload]
    rw [if_pos hw]
    rfl
  · left
    simp only [offload]
    rw [if_neg hw]

lemma grow_result (env : Env) (s : State) (s2 : State) (tr2 : List Call)
    (h : grow_by_one env s = Except.ok (s2, tr2)) :
    s2 = s ∨
    ∃ n, (wait_for_instance n (env.statuses n)).1 = true ∧
      Call.describe n ∈ tr2 ∧ Call.startWorkload n ∈ tr2 ∧
      s2 = { current_size := s.current_size + 1,
             active_instances := addActive n s.active_instances } := by
  unfold grow_by_one at h
  split at h
  · simp at h
  · split at h
    · simp at h
    · rename_i n trPoll heq
      split at h
      · rename_i hw
        obtain ⟨h1, h2⟩ := ok_pair_eq h
        refine Or.inr ⟨n, hw, ?_, ?_, h1.symm⟩
        · rw [← h2]
          simp [scale_instance_group, start_remote_load,
            wait_true_describe_mem n (env.statuses n) hw]
        · rw [← h2]
          simp [scale_instance_group, start_remote_load]
      · obtain ⟨h1, h2⟩ := ok_pair_eq h
        exact Or.inl h1.symm
    · obtain ⟨h1, h2⟩ := ok_pair_eq h
      exact Or.inl h1.symm

lemma scale_down_result (env : Env) (s : State) :
    scale_down env s = (s, []) ∨
    (MIN_INSTANCES < s.current_size ∧ s.active_instances ≠ [] ∧
      scale_down env s =
        ({ current_size := s.current_size - 1,
           active_instances := s.active_instances.dropLast },
          [Call.resize (s.current_size - 1)])) := by
  unfold scale_down
  split_ifs with hmin
  · cases hL : s.active_instances.getLast? with
    | none => exact Or.inl rfl
    | some x =>
      right
      refine ⟨hmin, ?_, rfl⟩
      intro hnil
      rw [hnil] at hL
      simp at hL
  · exact Or.inl rfl

lemma pyMod_bounds (a b : ℚ) (hb : 0 < b) : 0 ≤ pyMod a b ∧ pyMod a b < b := by
  unfold pyMod
  have h1 : ((⌊a / b⌋ : ℚ)) ≤ a / b := Int.floor_le (a / b)
  have h2 : a / b < (⌊a / b⌋ : ℚ) + 1 := Int.lt_floor_add_one (a / b)
  have h1' : ((⌊a / b⌋ : ℚ)) * b ≤ a := (le_div_iff₀ hb).mp h1
  have h2' : a < ((⌊a / b⌋ : ℚ) + 1) * b := (div_lt_iff₀ hb).mp h2
  have hc : b * ((⌊a / b⌋ : ℚ)) = ((⌊a / b⌋ : ℚ)) * b := mul_comm _ _
  have hx : (((⌊a / b⌋ : ℚ)) + 1) * b = ((⌊a / b⌋ : ℚ)) * b + b := by ring
  constructor
  · linarith
  · linarith

end VccScaling

namespace VccScaling

/-! ### Claim theorems -/

/-- C1: For every input pair (cpu, mem), the controller's per-tick decision is
exactly one of ScaleUp, ScaleDown, Hold: ScaleUp holds iff `cpu > cpuUp` or
`mem > memUp`; ScaleDown holds iff `cpu < cpuDown` and `mem < memDown`;
otherwise the decision is Hold, and no input satisfies two of these at once
(given the configured ordering `cpuDown < cpuUp`, `memDown < memUp`). -/
theorem hysteresis_exactly_one (cpuUp memUp cpuDown memDown cpu mem : ℚ)
    (hc : cpuDown < cpuUp) (hm : memDown < memUp) :
    (decision cpuUp memUp cpuDown memDown cpu mem = Decision.ScaleUp ↔
      (cpu > cpuUp ∨ mem > memUp)) ∧
    (decision cpuUp memUp cpuDown memDown cpu mem = Decision.ScaleDown ↔
      (cpu < cpuDown ∧ mem < memDown)) ∧
    (decision cpuUp memUp cpuDown memDown cpu mem = Decision.Hold ↔
      (¬(cpu > cpuUp ∨ mem > memUp) ∧ ¬(cpu < cpuDown ∧ mem < memDown))) ∧
    ¬((cpu > cpuUp ∨ mem > memUp) ∧ (cpu < cpuDown ∧ mem < memDown)) := by
  have hexcl : ¬((cpu > cpuUp ∨ mem > memUp) ∧ (cpu < cpuDown ∧ mem < memDown)) := by
    rintro ⟨h1, h2, h3⟩
    rcases h1 with h | h
    · linarith
    · linarith
  refine ⟨decision_eq_scaleUp_iff _ _ _ _ _ _, ?_, ?_, hexcl⟩
  · constructor
    · intro h
      exact (decision_eq_scaleDown _ _ _ _ _ _ h).2
    · intro h
      have hnup : ¬(cpu > cpuUp ∨ mem > memUp) := fun hcc => hexcl ⟨hcc, h⟩
      simp [decision, hnup, h]
  · constructor
    · intro h
      constructor
      · intro hcc
        simp [decision, hcc] at h
      · intro hcc
        have hnup : ¬(cpu > cpuUp ∨ mem > memUp) := fun hc2 => hexcl ⟨hc2, hcc⟩
        simp [decision, hnup, hcc] at h
    · rintro ⟨h1, h2⟩
      simp [decision, h1, h2]

/-- Witness for C1 at the default thresholds and the sample (cpu, mem) = (80, 40). -/
theorem hysteresis_exactly_one_witness :
    ((50 : ℚ) < 75 ∧ (50 : ℚ) < 90) ∧
    ((decision 75 90 50 50 80 40 = Decision.ScaleUp ↔ ((80 : ℚ) > 75 ∨ (40 : ℚ) > 90)) ∧
    (decision 75 90 50 50 80 40 = Decision.ScaleDown ↔ ((80 : ℚ) < 50 ∧ (40 : ℚ) < 50)) ∧
    (decision 75 90 50 50 80 40 = Decision.Hold ↔
      (¬((80 : ℚ) > 75 ∨ (40 : ℚ) > 90) ∧ ¬((80 : ℚ) < 50 ∧ (40 : ℚ) < 50))) ∧
    ¬(((80 : ℚ) > 75 ∨ (40 : ℚ) > 90) ∧ ((80 : ℚ) < 50 ∧ (40 : ℚ) < 50))) :=
  ⟨⟨by norm_num, by norm_num⟩,
    hysteresis_exactly_one 75 90 50 50 80 40 (by norm_num) (by norm_num)⟩

/-- C9: In the load generator `variable_cpu_load`, for every elapsed time and
every positive total_duration, the computed intensity lies in [0, 1], hence
`busy_time` lies in [0, cycle] and `sleep_time = cycle - busy_time` is
non-negative, so the sleep call is never given a negative argument. -/
theorem load_generator_safe (elapsed total : ℚ) (h : 0 < total) :
    0 ≤ intensity elapsed total ∧ intensity elapsed total ≤ 1 ∧
    0 ≤ busy_time elapsed total ∧ busy_time elapsed total ≤ cycle ∧
    0 ≤ sleep_time elapsed total := by
  obtain ⟨h0, h1⟩ := pyMod_bounds elapsed total h
  have hf0 : 0 ≤ fraction elapsed total := div_nonneg h0 (le_of_lt h)
  have hf1 : fraction elapsed total < 1 := by
    unfold fraction
    exact (div_lt_one h).mpr h1
  have hI : 0 ≤ intensity elapsed total ∧ intensity elapsed total ≤ 1 := by
    unfold intensity
    split_ifs with hcase
    · constructor
      · exact div_nonneg hf0 (by norm_num)
      · rw [div_le_one (by norm_num : (0 : ℚ) < 1/2)]
        linarith
    · push_neg at hcase
      constructor
      · exact div_nonneg (by linarith) (by norm_num)
      · rw [div_le_one (by norm_num : (0 : ℚ) < 1/2)]
        linarith
  refine ⟨hI.1, hI.2, ?_, ?_, ?_⟩
  · unfold busy_time cycle
    nlinarith [hI.1]
  · unfold busy_time cycle
    nlinarith [hI.2]
  · unfold sleep_time busy_time cycle
    nlinarith [hI.2]

/-- Witness for C9 at elapsed = 3, total_duration = 60. -/
theorem load_generator_safe_witness :
    (0 : ℚ) < 60 ∧
    (0 ≤ intensity 3 60 ∧ intensity 3 60 ≤ 1 ∧
      0 ≤ busy_time 3 60 ∧ busy_time 3 60 ≤ cycle ∧ 0 ≤ sleep_time 3 60) :=
  ⟨by norm_num, load_generator_safe 3 60 (by norm_num)⟩

/-- C5: For every tick whose decision is ScaleUp and in which at least one
idle group member exists (a node returned by ListNodes that is not in
`active_instances`), the controller performs the offload path only and issues
no Resize call in that tick. -/
theorem offload_precedence (env : Env) (s : State) (names : List String)
    (node : String) (rest : List String)
    (hl : env.listAvail = Except.ok names)
    (hd : decision CPU_SCALE_UP_THRESHOLD MEM_SCALE_UP_THRESHOLD
      CPU_SCALE_DOWN_THRESHOLD MEM_SCALE_DOWN_THRESHOLD
      env.cpu_usage env.mem_usage = Decision.ScaleUp)
    (hidle : setDiff names s.active_instances = node :: rest) :
    monitor_tick env s =
      Except.ok ((offload env s node).1, Call.listNodes :: (offload env s node).2) ∧
    ∀ k, Call.resize k ∉ Call.listNodes :: (offload env s node).2 := by
  have hup := (decision_eq_scaleUp_iff _ _ _ _ _ _).mp hd
  constructor
  · unfold monitor_tick
    rw [if_pos hup]
    simp only [hl, hidle]
  · intro k hk
    rcases List.mem_cons.mp hk with h | h
    · exact Call.noConfusion h
    · rcases offload_calls env s node _ h with h' | h' <;> exact Call.noConfusion h'

/-- Witness for C5: high load, one idle RUNNING node "n1", empty active set. -/
theorem offload_precedence_witness :
    monitor_tick envOffloadOne initState =
      Except.ok ((offload envOffloadOne initState "n1").1,
        Call.listNodes :: (offload envOffloadOne initState "n1").2) ∧
    Call.resize 2 ∉ Call.listNodes :: (offload envOffloadOne initState "n1").2 :=
  ⟨(offload_precedence envOffloadOne initState ["n1"] "n1" [] rfl rfl rfl).1,
    (offload_precedence envOffloadOne initState ["n1"] "n1" [] rfl rfl rfl).2 2⟩

/-- C10: For every tick whose decision is ScaleDown and in which
`active_instances` is empty, the controller issues no Resize call and leaves
both `current_size` and `active_instances` unchanged, even when `current_size`
exceeds MIN_INSTANCES. -/
theorem scale_down_empty_noop (env : Env) (s : State)
    (hd : decision CPU_SCALE_UP_THRESHOLD MEM_SCALE_UP_THRESHOLD
      CPU_SCALE_DOWN_THRESHOLD MEM_SCALE_DOWN_THRESHOLD
      env.cpu_usage env.mem_usage = Decision.ScaleDown)
    (he : s.active_instances = []) :
    monitor_tick env s = Except.ok (s, []) := by
  obtain ⟨hnup, hdn⟩ := decision_eq_scaleDown _ _ _ _ _ _ hd
  unfold monitor_tick
  rw [if_neg hnup, if_pos hdn]
  unfold scale_down
  rw [he]
  split_ifs with h1
  · rfl
  · rfl

/-- Witness for C10: low load, empty active set, current_size = 3 > MIN_INSTANCES. -/
theorem scale_down_empty_noop_witness :
    monitor_tick envLowLoad ⟨3, []⟩ = Except.ok (⟨3, []⟩, []) :=
  scale_down_empty_noop envLowLoad ⟨3, []⟩ (by decide) rfl

/-- C2 counterexample: in `envGrowStartFail` the grow path detects "n2",
confirms it RUNNING, and the StartWorkload (remote load) command fails; yet
the state commits to current_size = 2 with "n2" active, no revert
`Resize(1)` is issued, and current_size after the call differs from the
original 1 — contradicting the claim that any failing stage (including a
StartWorkload failure) reverts and leaves current_size unchanged. -/
theorem grow_commits_on_startWorkload_failure :
    grow_by_one envGrowStartFail ⟨1, []⟩ =
      Except.ok (⟨2, ["n2"]⟩,
        [Call.listNodes, Call.resize 2, Call.listNodes, Call.describe "n2",
          Call.startWorkload "n2"]) ∧
    envGrowStartFail.startOk "n2" = false ∧
    Call.resize 1 ∉
      [Call.listNodes, Call.resize 2, Call.listNodes, Call.describe "n2",
        Call.startWorkload "n2"] ∧
    (2 : Nat) ≠ 1 :=
  ⟨rfl, rfl, by decide, by decide⟩

/-- C3 counterexample: six consecutive offload ticks against a backend that
lists six RUNNING group members drive `current_size` to 6, exceeding
MAX_INSTANCES = 5, and the sixth tick is a completed (non-reverted) offload
reconciliation. -/
theorem bounds_violated_by_offload :
    run (List.replicate 6 envOffloadMany) initState =
      Except.ok ⟨6, ["n1", "n2", "n3", "n4", "n5", "n6"]⟩ ∧
    MAX_INSTANCES < 6 :=
  ⟨rfl, by decide⟩

/-- C4 counterexample: a scale-down tick in `envShrinkFail` removes node "b"
from `active_instances` although the backend Resize fails
(`resizeOk 1 = false`) — removal does not require a successful Resize. -/
theorem active_removed_despite_resize_failure :
    monitor_tick envShrinkFail ⟨2, ["a", "b"]⟩ =
      Except.ok (⟨1, ["a"]⟩, [Call.resize 1]) ∧
    envShrinkFail.resizeOk 1 = false :=
  ⟨rfl, rfl⟩

/-- C6 counterexample: the shrink path in `envShrinkFail` removes the last
active node and decrements `current_size` although the backend Resize fails
(`resizeOk 1 = false`) — the claimed no-mutation-on-failure does not hold. -/
theorem shrink_mutates_despite_resize_failure :
    scale_down envShrinkFail ⟨2, ["a", "b"]⟩ = (⟨1, ["a"]⟩, [Call.resize 1]) ∧
    envShrinkFail.resizeOk 1 = false :=
  ⟨rfl, rfl⟩

/-- C7 counterexample: a failing `get_instance_names` (ListNodes) call — run
with `check=True` and no handler — raises out of the tick, terminating the
monitoring loop, contradicting the claim that every backend error is absorbed
within the tick. -/
theorem tick_crashes_on_listNodes_failure :
    monitor_tick envListFail initState = Except.error () := rfl

/-- C8 counterexample: offloading "b" when `current_size = 1` and "a" is
already active succeeds and sets `current_size = max(1, 2) = 2` — the offload
operation does not leave `current_size` unchanged. -/
theorem offload_changes_current_size :
    (offload envOffloadFull ⟨1, ["a"]⟩ "b").1 = ⟨2, ["a", "b"]⟩ ∧
    (2 : Nat) ≠ 1 :=
  ⟨rfl, by decide⟩

/-- C2 (amended): if the grow operation fails because no new node is detected
within the timeout, or because the detected node never reaches RUNNING, a
revert Resize to the original `current_size` is issued and the state is
returned unchanged.  A StartWorkload failure, however, is not a failure stage:
`start_remote_load` catches the error, the confirmed-Running node is still
added to `active_instances`, `current_size` is incremented, and no revert
Resize is issued. -/
theorem grow_by_one_amended (env : Env) (s : State) (before : List String)
    (hb : env.listBefore = Except.ok before) :
    (∀ tr0, detect_new_node before env.polls = Except.ok (none, tr0) →
      grow_by_one env s = Except.ok (s,
        Call.listNodes :: Call.resize (s.current_size + 1) ::
          (tr0 ++ [Call.resize s.current_size])) ∧
      Call.resize s.current_size ∈
        Call.listNodes :: Call.resize (s.current_size + 1) ::
          (tr0 ++ [Call.resize s.current_size])) ∧
    (∀ n tr0, detect_new_node before env.polls = Except.ok (some n, tr0) →
      (wait_for_instance n (env.statuses n)).1 = false →
      grow_by_one env s = Except.ok (s,
        Call.listNodes :: Call.resize (s.current_size + 1) ::
          (tr0 ++ (wait_for_instance n (env.statuses n)).2 ++
            [Call.resize s.current_size])) ∧
      Call.resize s.current_size ∈
        Call.listNodes :: Call.resize (s.current_size + 1) ::
          (tr0 ++ (wait_for_instance n (env.statuses n)).2 ++
            [Call.resize s.current_size])) ∧
    (∀ n tr0, detect_new_node before env.polls = Except.ok (some n, tr0) →
      (wait_for_instance n (env.statuses n)).1 = true →
      grow_by_one env s = Except.ok
        ({ current_size := s.current_size + 1,
           active_instances := addActive n s.active_instances },
          Call.listNodes :: Call.resize (s.current_size + 1) ::
            (tr0 ++ (wait_for_instance n (env.statuses n)).2 ++
              [Call.startWorkload n])) ∧
      Call.resize s.current_size ∉
        Call.listNodes :: Call.resize (s.current_size + 1) ::
          (tr0 ++ (wait_for_instance n (env.statuses n)).2 ++
            [Call.startWorkload n])) := by
  refine ⟨?_, ?_, ?_⟩
  · intro tr0 hdet
    constructor
    · simp [grow_by_one, hb, hdet, scale_instance_group]
    · simp
  · intro n tr0 hdet hw
    constructor
    · simp [grow_by_one, hb, hdet, hw, scale_instance_group]
    · simp
  · intro n tr0 hdet hw
    constructor
    · simp [grow_by_one, hb, hdet, hw, scale_instance_group, start_remote_load]
    · intro hmem
      simp only [List.mem_cons, List.mem_append, List.mem_singleton] at hmem
      rcases hmem with h | h | (h | h) | (h | h)
      · exact Call.noConfusion h
      · injection h with h'
        omega
      · exact Call.noConfusion (detect_calls_listNodes before env.polls _ _ hdet _ h)
      · exact Call.noConfusion (wait_calls_describe n _ _ h)
      · exact Call.noConfusion h
      · exact absurd h (List.not_mem_nil _)

/-- Witness for C2 (amended): the detection poll budget of `envGrowTimeout`
expires with no new node; the call returns the original state and its trace
ends with the revert `Resize(1)`. -/
theorem grow_by_one_amended_witness :
    detect_new_node [] envGrowTimeout.polls = Except.ok (none, []) ∧
    grow_by_one envGrowTimeout ⟨1, []⟩ =
      Except.ok (⟨1, []⟩,
        Call.listNodes :: Call.resize 2 :: ([] ++ [Call.resize 1])) ∧
    Call.resize 1 ∈ Call.listNodes :: Call.resize 2 :: ([] ++ [Call.resize 1]) :=
  ⟨rfl, ((grow_by_one_amended envGrowTimeout ⟨1, []⟩ [] rfl).1 [] rfl).1,
    ((grow_by_one_amended envGrowTimeout ⟨1, []⟩ [] rfl).1 [] rfl).2⟩

/-- C3 (amended): for every reachable state, `MIN_INSTANCES ≤ current_size`
holds, and `current_size ≤ max MAX_INSTANCES |active_instances|`; the plain
upper bound `current_size ≤ MAX_INSTANCES` can be exceeded by the offload path
(`current_size = max(current_size, len(active_instances))`) when the backend
lists more than MAX_INSTANCES nodes. -/
theorem bounds_invariant (env : Env) (s s' : State) (tr : List Call)
    (hlo : MIN_INSTANCES ≤ s.current_size)
    (hhi : s.current_size ≤ max MAX_INSTANCES s.active_instances.length)
    (h : monitor_tick env s = Except.ok (s', tr)) :
    MIN_INSTANCES ≤ s'.current_size ∧
    s'.current_size ≤ max MAX_INSTANCES s'.active_instances.length := by
  unfold monitor_tick at h
  by_cases hup : env.cpu_usage > CPU_SCALE_UP_THRESHOLD ∨
      env.mem_usage > MEM_SCALE_UP_THRESHOLD
  · rw [if_pos hup] at h
    split at h
    · simp at h
    · split at h
      · rename_i node rest heqD
        obtain ⟨h1, h2⟩ := ok_pair_eq h
        rcases offload_result env s node with hres | ⟨hw, hres⟩
        · have hss : s' = s := by rw [← h1, hres]
          subst hss
          exact ⟨hlo, hhi⟩
        · have hss : s' =
              { current_size :=
                  max s.current_size (addActive node s.active_instances).length,
                active_instances := addActive node s.active_instances } := by
            rw [← h1, hres]
          subst hss
          have hlen := length_le_addActive node s.active_instances
          simp only [MIN_INSTANCES, MAX_INSTANCES] at hlo hhi ⊢
          omega
      · by_cases hmax : s.current_size < MAX_INSTANCES
        · rw [if_pos hmax] at h
          split at h
          · simp at h
          · rename_i s2 tr2 heqG
            obtain ⟨h1, h2⟩ := ok_pair_eq h
            rcases grow_result env s s2 tr2 heqG with hres | ⟨n, hw, hdesc, hstart, hres⟩
            · have hss : s' = s := by rw [← h1, hres]
              subst hss
              exact ⟨hlo, hhi⟩
            · have hss : s' =
                  { current_size := s.current_size + 1,
                    active_instances := addActive n s.active_instances } := by
                rw [← h1, hres]
              subst hss
              have hlen := length_le_addActive n s.active_instances
              simp only [MIN_INSTANCES, MAX_INSTANCES] at hlo hhi hmax ⊢
              omega
        · rw [if_neg hmax] at h
          obtain ⟨h1, h2⟩ := ok_pair_eq h
          have hss : s' = s := h1.symm
          subst hss
          exact ⟨hlo, hhi⟩
  · rw [if_neg hup] at h
    by_cases hdn : env.cpu_usage < CPU_SCALE_DOWN_THRESHOLD ∧
        env.mem_usage < MEM_SCALE_DOWN_THRESHOLD
    · rw [if_pos hdn] at h
      obtain ⟨h1, h2⟩ := ok_pair_eq h
      rcases scale_down_result env s with hres | ⟨hmin, hne, hres⟩
      · have hss : s' = s := by rw [← h1, hres]
        subst hss
        exact ⟨hlo, hhi⟩
      · have hss : s' =
            { current_size := s.current_size - 1,
              active_instances := s.active_instances.dropLast } := by
          rw [← h1, hres]
        subst hss
        have hlen := List.length_dropLast s.active_instances
        simp only [MIN_INSTANCES, MAX_INSTANCES] at hlo hhi hmin ⊢
        rw [hlen]
        omega
    · rw [if_neg hdn] at h
      obtain ⟨h1, h2⟩ := ok_pair_eq h
      have hss : s' = s := h1.symm
      subst hss
      exact ⟨hlo, hhi⟩

/-- Witness for C3 (amended): a successful offload tick from the initial state. -/
theorem bounds_invariant_witness :
    MIN_INSTANCES ≤ (⟨1, ["n1"]⟩ : State).current_size ∧
    (⟨1, ["n1"]⟩ : State).current_size ≤
      max MAX_INSTANCES (⟨1, ["n1"]⟩ : State).active_instances.length :=
  bounds_invariant envOffloadOne initState ⟨1, ["n1"]⟩
    [Call.listNodes, Call.describe "n1", Call.startWorkload "n1"]
    (by decide) (by decide) rfl

/-- C4 (amended): in every step of the controller loop, a node is added to
`active_instances` only after being confirmed RUNNING by status polling and
after the StartWorkload command is issued — but the StartWorkload's success is
not verified (its failure is caught and ignored); a node is removed from
`active_instances` only in the scale-down path, after a Resize to the
decremented size is issued — but the Resize's success is likewise not
verified. -/
theorem active_changes (env : Env) (s s' : State) (tr : List Call)
    (h : monitor_tick env s = Except.ok (s', tr)) :
    (∀ n, n ∈ s'.active_instances → n ∉ s.active_instances →
      (wait_for_instance n (env.statuses n)).1 = true ∧
      Call.describe n ∈ tr ∧ Call.startWorkload n ∈ tr) ∧
    (∀ n, n ∈ s.active_instances → n ∉ s'.active_instances →
      Call.resize (s.current_size - 1) ∈ tr) := by
  unfold monitor_tick at h
  by_cases hup : env.cpu_usage > CPU_SCALE_UP_THRESHOLD ∨
      env.mem_usage > MEM_SCALE_UP_THRESHOLD
  · rw [if_pos hup] at h
    split at h
    · simp at h
    · split at h
      · rename_i node rest heqD
        obtain ⟨h1, h2⟩ := ok_pair_eq h
        rcases offload_result env s node with hres | ⟨hw, hres⟩
        · have hss : s' = s := by rw [← h1, hres]
          subst hss
          exact ⟨fun n hn hn' => absurd hn hn', fun n hn hn' => absurd hn hn'⟩
        · have hfst : (offload env s node).1 =
              { current_size :=
                  max s.current_size (addActive node s.active_instances).length,
                active_instances := addActive node s.active_instances } := by
            rw [hres]
          have hsnd : (offload env s node).2 =
              (wait_for_instance node (env.statuses node)).2 ++
                [Call.startWorkload node] := by
            rw [hres]
          constructor
          · intro n hn hn'
            have hn2 : n ∈ addActive node s.active_instances := by
              rw [← h1, hfst] at hn
              exact hn
            rcases mem_addActive hn2 with hmem | hmem
            · exact absurd hmem hn'
            · subst hmem
              refine ⟨hw, ?_, ?_⟩
              · rw [← h2, hsnd]
                exact List.mem_cons_of_mem _
                  (List.mem_append.mpr
                    (Or.inl (wait_true_describe_mem n (env.statuses n) hw)))
              · rw [← h2, hsnd]
                exact List.mem_cons_of_mem _
                  (List.mem_append.mpr (Or.inr (List.mem_singleton.mpr rfl)))
          · intro n hn hn'
            exfalso
            apply hn'
            rw [← h1, hfst]
            exact mem_addActive_of_mem n node s.active_instances hn
      · by_cases hmax : s.current_size < MAX_INSTANCES
        · rw [if_pos hmax] at h
          split at h
          · simp at h
          · rename_i s2 tr2 heqG
            obtain ⟨h1, h2⟩ := ok_pair_eq h
            rcases grow_result env s s2 tr2 heqG with hres | ⟨n, hw, hdesc, hstart, hres⟩
            · have hss : s' = s := by rw [← h1, hres]
              subst hss
              exact ⟨fun n hn hn' => absurd hn hn', fun n hn hn' => absurd hn hn'⟩
            · constructor
              · intro m hm hm'
                have hm2 : m ∈ addActive n s.active_instances := by
                  rw [← h1, hres] at hm
                  exact hm
                rcases mem_addActive hm2 with hmem | hmem
                · exact absurd hmem hm'
                · subst hmem
                  exact ⟨hw, by rw [← h2]; exact List.mem_cons_of_mem _ hdesc,
                    by rw [← h2]; exact List.mem_cons_of_mem _ hstart⟩
              · intro m hm hm'
                exfalso
                apply hm'
                rw [← h1, hres]
                exact mem_addActive_of_mem m n s.active_instances hm
        · rw [if_neg hmax] at h
          obtain ⟨h1, h2⟩ := ok_pair_eq h
          have hss : s' = s := h1.symm
          subst hss
          exact ⟨fun n hn hn' => absurd hn hn', fun n hn hn' => absurd hn hn'⟩
  · rw [if_neg hup] at h
    by_cases hdn : env.cpu_usage < CPU_SCALE_DOWN_THRESHOLD ∧
        env.mem_usage < MEM_SCALE_DOWN_THRESHOLD
    · rw [if_pos hdn] at h
      obtain ⟨h1, h2⟩ := ok_pair_eq h
      rcases scale_down_result env s with hres | ⟨hmin, hne, hres⟩
      · have hss : s' = s := by rw [← h1, hres]
        subst hss
        exact ⟨fun n hn hn' => absurd hn hn', fun n hn hn' => absurd hn hn'⟩
      · have hfst : (scale_down env s).1 =
            { current_size := s.current_size - 1,
              active_instances := s.active_instances.dropLast } := by
          rw [hres]
        have hsnd : (scale_down env s).2 = [Call.resize (s.current_size - 1)] := by
          rw [hres]
        constructor
        · intro n hn hn'
          exfalso
          apply hn'
          have hmem : n ∈ s.active_instances.dropLast := by
            rw [← h1, hfst] at hn
            exact hn
          exact List.dropLast_subset _ hmem
        · intro n hn hn'
          rw [← h2, hsnd]
          exact List.mem_singleton.mpr rfl
    · rw [if_neg hdn] at h
      obtain ⟨h1, h2⟩ := ok_pair_eq h
      have hss : s' = s := h1.symm
      subst hss
      exact ⟨fun n hn hn' => absurd hn hn', fun n hn hn' => absurd hn hn'⟩

/-- Witness for C4 (amended): in the successful offload tick of
`envOffloadOne`, the added node "n1" was polled RUNNING and both the describe
and the workload-start calls appear in the tick's trace. -/
theorem active_changes_witness :
    (wait_for_instance "n1" (envOffloadOne.statuses "n1")).1 = true ∧
    Call.describe "n1" ∈
      [Call.listNodes, Call.describe "n1", Call.startWorkload "n1"] ∧
    Call.startWorkload "n1" ∈
      [Call.listNodes, Call.describe "n1", Call.startWorkload "n1"] :=
  (active_changes envOffloadOne initState ⟨1, ["n1"]⟩
    [Call.listNodes, Call.describe "n1", Call.startWorkload "n1"] rfl).1 "n1"
    (by decide) (by decide)

/-- C6 (amended): the shrink path issues Resize(current_size - 1) and then
unconditionally removes the last active node and decrements `current_size`;
`scale_instance_group` catches and only logs a backend failure, so the
mutation happens whether or not the Resize succeeded, and no error is
reported to the caller. -/
theorem shrink_unconditional (env : Env) (s : State)
    (h1 : MIN_INSTANCES < s.current_size) (h2 : s.active_instances ≠ []) :
    scale_down env s =
      ({ current_size := s.current_size - 1,
         active_instances := s.active_instances.dropLast },
        [Call.resize (s.current_size - 1)]) := by
  unfold scale_down
  rw [if_pos h1]
  cases hL : s.active_instances.getLast? with
  | none => exact absurd (List.getLast?_eq_none_iff.mp hL) h2
  | some x => rfl

/-- Witness for C6 (amended): the shrink in `envShrinkFail` mutates the state
although its Resize fails. -/
theorem shrink_unconditional_witness :
    MIN_INSTANCES < 2 ∧ envShrinkFail.resizeOk 1 = false ∧
    scale_down envShrinkFail ⟨2, ["a", "b"]⟩ = (⟨1, ["a"]⟩, [Call.resize 1]) :=
  ⟨by decide, rfl,
    shrink_unconditional envShrinkFail ⟨2, ["a", "b"]⟩ (by decide) (by decide)⟩

/-- C7 (amended): Resize, DescribeStatus and StartWorkload failures are
absorbed within the tick (their errors are caught or read as non-RUNNING
statuses) and the loop proceeds; but a failing `get_instance_names`
(ListNodes) raises out of `monitor_resources` and terminates the loop in
scaling_to_cloud.py.  Whenever every list call of the tick succeeds, the tick
completes normally regardless of all other backend failures. -/
theorem tick_survives_when_listNodes_ok (env : Env) (s : State)
    (h1 : env.listAvail.isOk = true)
    (h2 : env.listBefore.isOk = true)
    (h3 : ∀ p ∈ env.polls, p.isOk = true) :
    (monitor_tick env s).isOk = true := by
  unfold monitor_tick
  by_cases hup : env.cpu_usage > CPU_SCALE_UP_THRESHOLD ∨
      env.mem_usage > MEM_SCALE_UP_THRESHOLD
  · rw [if_pos hup]
    cases hA : env.listAvail with
    | error e =>
      rw [hA] at h1
      simp [Except.isOk, Except.toBool] at h1
    | ok names =>
      simp only [hA]
      cases hD : setDiff names s.active_instances with
      | cons node rest => simp [hD, Except.isOk, Except.toBool]
      | nil =>
        simp only [hD]
        by_cases hmax : s.current_size < MAX_INSTANCES
        · rw [if_pos hmax]
          cases hB : env.listBefore with
          | error e =>
            rw [hB] at h2
            simp [Except.isOk, Except.toBool] at h2
          | ok before =>
            have hdet : ∃ r, detect_new_node before env.polls = Except.ok r := by
              apply detect_ok_of_polls_ok
              intro p hp
              cases p with
              | error e =>
                have hpe := h3 _ hp
                simp [Except.isOk, Except.toBool] at hpe
              | ok zs => exact ⟨zs, rfl⟩
            obtain ⟨⟨r, trPoll⟩, hdet⟩ := hdet
            cases r with
            | none => simp [grow_by_one, hB, hdet, Except.isOk, Except.toBool]
            | some n =>
              by_cases hw : (wait_for_instance n (env.statuses n)).1 = true
              · simp [grow_by_one, hB, hdet, hw, Except.isOk, Except.toBool]
              · simp [grow_by_one, hB, hdet, hw, Except.isOk, Except.toBool]
        · rw [if_neg hmax]
          simp [Except.isOk, Except.toBool]
  · rw [if_neg hup]
    by_cases hdn : env.cpu_usage < CPU_SCALE_DOWN_THRESHOLD ∧
        env.mem_usage < MEM_SCALE_DOWN_THRESHOLD
    · rw [if_pos hdn]
      simp [Except.isOk, Except.toBool]
    · rw [if_neg hdn]
      simp [Except.isOk, Except.toBool]

/-- Witness for C7 (amended): in `envBackendFlaky` all resize and workload
start commands fail and all describe polls fail (read as non-RUNNING), yet the
tick completes without raising. -/
theorem tick_survives_witness :
    envBackendFlaky.resizeOk 2 = false ∧ envBackendFlaky.startOk "n" = false ∧
    (monitor_tick envBackendFlaky initState).isOk = true :=
  ⟨rfl, rfl,
    tick_survives_when_listNodes_ok envBackendFlaky initState rfl rfl (by decide)⟩

/-- C8 (amended): the offload operation leaves `current_size` unchanged when
it fails (the node never reports RUNNING); when it succeeds it sets
`current_size` to max(current_size, |active_instances after the insertion|) —
unchanged whenever the enlarged active set has at most `current_size`
members, and larger otherwise. -/
theorem offload_frame (env : Env) (s : State) (node : String) :
    ((wait_for_instance node (env.statuses node)).1 = false →
      offload env s node = (s, (wait_for_instance node (env.statuses node)).2)) ∧
    ((wait_for_instance node (env.statuses node)).1 = true →
      (offload env s node).1.current_size =
        max s.current_size (addActive node s.active_instances).length) ∧
    ((wait_for_instance node (env.statuses node)).1 = true →
      (addActive node s.active_instances).length ≤ s.current_size →
      (offload env s node).1.current_size = s.current_size) := by
  refine ⟨?_, ?_, ?_⟩
  · intro hw
    unfold offload
    rw [if_neg (by simp [hw] :
      ¬((wait_for_instance node (env.statuses node)).1 = true))]
  · intro hw
    unfold offload
    rw [if_pos hw]
  · intro hw hle
    unfold offload
    rw [if_pos hw]
    exact Nat.max_eq_left hle

/-- Witness for C8 (amended): the failed offload of the never-ready node "b"
leaves the state — in particular current_size — unchanged. -/
theorem offload_frame_witness :
    (wait_for_instance "b" (envOffloadNotReady.statuses "b")).1 = false ∧
    offload envOffloadNotReady ⟨1, ["a"]⟩ "b" =
      (⟨1, ["a"]⟩, (wait_for_instance "b" (envOffloadNotReady.statuses "b")).2) :=
  ⟨rfl, (offload_frame envOffloadNotReady ⟨1, ["a"]⟩ "b").1 rfl⟩

end VccScaling
